import Mathlib

/-!
Verification of the api-framework repository's logging/reporting core.

The development shallowly embeds the Python source of
`api_framework/logger.py`, `api_framework/reporting.py` and
`api_framework/assertions.py`: Python dict/list/str/int values become an
inductive `PyVal`, Python floats that hold exact halves become `Rat`,
datetimes are carried as their ISO-rendered strings, the filesystem is an
association list from path to content, and exceptions become `Except` /
`Option` results.  Each definition mirrors one Python function; theorems
at the end settle the specification claims.
-/

/-! ## Python-like values

`PyVal` models the JSON-ish Python values that flow through the logger
(str, int, bool, None, list, dict).  Dicts keep insertion order, as
Python dicts do. -/

mutual

inductive PyVal : Type where
  | str (s : String)
  | int (n : Int)
  | bool (b : Bool)
  | pynone
  | list (xs : PyList)
  | dict (kvs : PyDict)
  deriving DecidableEq

inductive PyList : Type where
  | nil
  | cons (x : PyVal) (xs : PyList)
  deriving DecidableEq

inductive PyDict : Type where
  | nil
  | cons (k : String) (v : PyVal) (kvs : PyDict)
  deriving DecidableEq

end

/-- The entries of a dict, in insertion order. -/
def PyDict.entries : PyDict → List (String × PyVal)
  | .nil => []
  | .cons k v kvs => (k, v) :: kvs.entries

/-- Python `key in dict`. -/
def PyDict.containsKey : PyDict → String → Bool
  | .nil, _ => false
  | .cons k _ kvs, key => k = key || kvs.containsKey key

/-- Python `dict[key] = value` on an existing key: the value stored under
`key` is replaced in place (every entry with that key; a Python dict has
at most one). -/
def PyDict.setVal : PyDict → String → PyVal → PyDict
  | .nil, _, _ => .nil
  | .cons k v kvs, key, newV =>
      if k = key then .cons k newV (kvs.setVal key newV)
      else .cons k v (kvs.setVal key newV)

/-- Python truthiness (`if body:`) for the values we model. -/
def pyTruthy : PyVal → Bool
  | .str s => s ≠ ""
  | .int n => n ≠ 0
  | .bool b => b
  | .pynone => false
  | .list .nil => false
  | .list (.cons _ _) => true
  | .dict .nil => false
  | .dict (.cons _ _ _) => true

/-! ## Model of Python `json.dumps(..., indent=2)` -/

/-- Model of Python's JSON string escaping for the characters that can
occur in our values (quote, backslash, and common control characters). -/
def jsonEscapeChar (c : Char) : String :=
  if c = '"' then "\\\""
  else if c = '\\' then "\\\\"
  else if c = '\n' then "\\n"
  else if c = '\t' then "\\t"
  else if c = '\r' then "\\r"
  else String.singleton c

def jsonEscape (s : String) : String :=
  String.join (s.data.map jsonEscapeChar)

def jsonQuote (s : String) : String :=
  "\"" ++ jsonEscape s ++ "\""

/-- `indent=2` indentation for nesting level `lv`. -/
def jsonIndent (lv : Nat) : String :=
  String.mk (List.replicate (2 * lv) ' ')

/-- Python `sep.join(xs)`. -/
def strJoin (sep : String) : List String → String
  | [] => ""
  | [x] => x
  | x :: y :: rest => x ++ sep ++ strJoin sep (y :: rest)

mutual

/-- Model of `json.dumps(v, indent=2)` at nesting level `lv` (with the
default item/key separators `','` and `': '` that Python uses when an
indent is given). -/
def pyDumps (lv : Nat) : PyVal → String
  | .str s => jsonQuote s
  | .int n => toString n
  | .bool b => if b then "true" else "false"
  | .pynone => "null"
  | .list .nil => "[]"
  | .list (.cons x xs) =>
      "[\n" ++ strJoin ",\n" (pyDumpsItems (lv + 1) (.cons x xs)) ++
        "\n" ++ jsonIndent lv ++ "]"
  | .dict .nil => "\x7b\x7d"
  | .dict (.cons k v kvs) =>
      "\x7b\n" ++ strJoin ",\n" (pyDumpsEntries (lv + 1) (.cons k v kvs)) ++
        "\n" ++ jsonIndent lv ++ "\x7d"

/-- The rendered items of a JSON array, one string per item. -/
def pyDumpsItems (lv : Nat) : PyList → List String
  | .nil => []
  | .cons x xs => (jsonIndent lv ++ pyDumps lv x) :: pyDumpsItems lv xs

/-- The rendered entries of a JSON object, one string per entry. -/
def pyDumpsEntries (lv : Nat) : PyDict → List String
  | .nil => []
  | .cons k v kvs =>
      (jsonIndent lv ++ jsonQuote k ++ ": " ++ pyDumps lv v) ::
        pyDumpsEntries lv kvs

end

/-! ## `APILogger` formatting (logger.py) -/

/-- The fixed redaction marker. -/
def maskStr : String := "*****"

/-- The closed set of sensitive header keys (`_format_headers`). -/
def sensitiveHeaderKeys : List String := ["authorization", "cookie", "x-api-key"]

/-- The closed set of sensitive body field names (`_format_body`). -/
def sensitiveBodyKeys : List String := ["password", "token", "api_key"]

/-- Python `str.lower()` for the ASCII header keys in play (identical to
`String.toLower`, but stated through `List.map` so that it reduces). -/
def pyLower (s : String) : String :=
  String.mk (s.data.map Char.toLower)

/-- `APILogger._format_headers`: one `key: value` line per header, the
value replaced by the marker when the lowercased key is sensitive,
joined with newlines. -/
def formatHeaders (headers : List (String × String)) : String :=
  strJoin "\n" (headers.map fun kv =>
    if sensitiveHeaderKeys.contains (pyLower kv.1) then kv.1 ++ ": " ++ maskStr
    else kv.1 ++ ": " ++ kv.2)

/-- The dict-masking loop of `_format_body`: for each sensitive field
name, if the dict has that key, store the marker under it.  (The source
runs this on a shallow copy of the caller's dict.) -/
def maskDict (d : PyDict) : PyDict :=
  sensitiveBodyKeys.foldl
    (fun b k => if b.containsKey k then b.setVal k (.str maskStr) else b) d

/-- `APILogger._format_body`: empty string for falsy bodies; dicts are
shallow-masked then JSON-dumped; lists are JSON-dumped unmasked; other
values are rendered with `str()`. -/
def formatBody (body : PyVal) : String :=
  if ¬ pyTruthy body then ""
  else match body with
    | .dict kvs => pyDumps 0 (.dict (maskDict kvs))
    | .list xs => pyDumps 0 (.list xs)
    | .str s => s
    | .int n => toString n
    | .bool b => if b then "True" else "False"
    | .pynone => ""

/-- `APILogger.log_request`: the formatted entry that is put on the log
queue, as a function of the UTC timestamp's ISO rendering and the call's
arguments.  `headers = []` covers both Python `None` and `{}` (both are
falsy, so the header block is skipped either way). -/
def logRequestEntry (ts method url : String) (headers : List (String × String))
    (body : Option PyVal) : String :=
  let entry := "[" ++ ts ++ "Z] REQUEST:\n" ++ method ++ " " ++ url ++ "\n"
  let entry := if headers.isEmpty then entry else entry ++ formatHeaders headers ++ "\n"
  match body with
  | some b => if pyTruthy b then entry ++ "Body: " ++ formatBody b ++ "\n" else entry
  | none => entry

/-- `APILogger.log_response`: the formatted entry that is put on the log
queue (`durMs` is the computed request/response delta in milliseconds). -/
def logResponseEntry (ts : String) (durMs : Int) (statusCode : Int)
    (headers : List (String × String)) (body : Option PyVal) : String :=
  let entry := "[" ++ ts ++ "Z] RESPONSE (" ++ toString durMs ++ "ms):\n" ++
    "Status: " ++ toString statusCode ++ "\n"
  let entry := if headers.isEmpty then entry else entry ++ formatHeaders headers ++ "\n"
  let entry :=
    match body with
    | some b => if pyTruthy b then entry ++ "Body: " ++ formatBody b ++ "\n" else entry
    | none => entry
  entry ++ String.mk (List.replicate 40 '-') ++ "\n"

/-- Substring test: does `s` contain `pat`? -/
def strContains (s pat : String) : Bool :=
  decide (pat.data <:+: s.data)

/-! ## Substring (infix) machinery

The masking claims assert that a secret substring never appears in a
formatted log entry.  The entry is a concatenation of content pieces
(URL, header keys, …) separated by characters that cannot occur in the
secret; the lemmas below let an occurrence of the secret be pushed into
one of the pieces. -/

/-- A prefix that avoids the character `c` stops before `c`. -/
theorem prefix_split_at_char {α : Type} {p a b : List α} {c : α}
    (hc : c ∉ p) (h : p <+: a ++ c :: b) : p <+: a := by
  induction a generalizing p with
  | nil =>
    rcases List.prefix_cons_iff.mp h with rfl | ⟨t, rfl, _⟩
    · exact List.nil_prefix
    · exact absurd (List.mem_cons_self _ _) hc
  | cons x a' ih =>
    rcases List.prefix_cons_iff.mp h with rfl | ⟨t, rfl, ht⟩
    · exact List.nil_prefix
    · have hct : c ∉ t := fun hmem => hc (List.mem_cons_of_mem _ hmem)
      exact List.cons_prefix_cons.mpr ⟨rfl, ih hct ht⟩

/-- An occurrence of `p` inside `a ++ c :: b` lies inside `a` or inside
`b` when the separating character `c` does not occur in `p`. -/
theorem infix_split_at_char {α : Type} {p a b : List α} {c : α}
    (hc : c ∉ p) (h : p <:+: a ++ c :: b) : p <:+: a ∨ p <:+: b := by
  induction a generalizing p with
  | nil =>
    rcases List.infix_cons_iff.mp h with hpre | hinf
    · rcases List.prefix_cons_iff.mp hpre with rfl | ⟨t, rfl, _⟩
      · exact Or.inl List.nil_infix
      · exact absurd (List.mem_cons_self _ _) hc
    · exact Or.inr hinf
  | cons x a' ih =>
    rcases List.infix_cons_iff.mp h with hpre | hinf
    · exact Or.inl (prefix_split_at_char hc hpre).isInfix
    · rcases ih hc hinf with h' | h'
      · exact Or.inl (List.infix_cons h')
      · exact Or.inr h'

/-- A nonempty `p` that avoids all characters of `s` and occurs in
`s ++ b` occurs in `b`. -/
theorem infix_strip_forbidden {α : Type} {p s b : List α}
    (hs : ∀ c ∈ s, c ∉ p) (hp : p ≠ []) (h : p <:+: s ++ b) : p <:+: b := by
  induction s with
  | nil => simpa using h
  | cons x s' ih =>
    rcases List.infix_cons_iff.mp h with hpre | hinf
    · rcases List.prefix_cons_iff.mp hpre with rfl | ⟨t, rfl, _⟩
      · exact absurd rfl hp
      · exact absurd (List.mem_cons_self _ _) (hs x (List.mem_cons_self _ _))
    · exact ih (fun c hmem => hs c (List.mem_cons_of_mem _ hmem)) hinf

/-- A nonempty `p` that avoids all characters of `s` is not an infix of `s`. -/
theorem not_infix_of_forbidden {α : Type} {p s : List α}
    (hs : ∀ c ∈ s, c ∉ p) (hp : p ≠ []) : ¬ p <:+: s := fun h =>
  hp (List.infix_nil.mp (infix_strip_forbidden hs hp (by simpa using h)))

theorem infix_of_infix_append {α : Type} {p a b : List α}
    (h : p <:+: b) : p <:+: a ++ b := by
  obtain ⟨s, t, hst⟩ := h
  exact ⟨a ++ s, t, by rw [← hst]; simp [List.append_assoc]⟩

/-- A chunk of a formatted log entry: `sep` chunks consist purely of
characters that cannot occur in the secret, `txt` chunks are arbitrary
content known not to contain the secret. -/
inductive LogChunk : Type where
  | sep (s : List Char)
  | txt (s : List Char)

def LogChunk.chars : LogChunk → List Char
  | .sep s => s
  | .txt s => s

def chunksData (cs : List LogChunk) : List Char :=
  (cs.map LogChunk.chars).flatten

/-- Well-formed chunk lists with respect to a secret `p`: every `sep`
chunk only holds characters foreign to `p`, and every `txt` chunk is
secret-free and is followed by a nonempty `sep` chunk (or ends the
list), so that an occurrence of the secret can never straddle two
content chunks. -/
inductive ChunksOk (p : List Char) : List LogChunk → Prop where
  | nil : ChunksOk p []
  | sep {s : List Char} {rest : List LogChunk}
      (hs : ∀ c ∈ s, c ∉ p) (h : ChunksOk p rest) :
      ChunksOk p (.sep s :: rest)
  | txtNil {s : List Char} (hs : ¬ p <:+: s) : ChunksOk p [.txt s]
  | txtSep {s s' : List Char} {rest : List LogChunk}
      (hs : ¬ p <:+: s) (hne : s' ≠ []) (hsc : ∀ c ∈ s', c ∉ p)
      (h : ChunksOk p rest) : ChunksOk p (.txt s :: .sep s' :: rest)

/-- A nonempty secret does not occur in the concatenation of a
well-formed chunk list. -/
theorem chunksOk_not_infix {p : List Char} (hp : p ≠ []) :
    ∀ {cs : List LogChunk}, ChunksOk p cs → ¬ p <:+: chunksData cs := by
  intro cs hok
  induction hok with
  | nil =>
    intro h
    exact hp (List.infix_nil.mp (by simpa [chunksData] using h))
  | sep hs _ ih =>
    intro h
    exact ih (infix_strip_forbidden hs hp (by simpa [chunksData] using h))
  | txtNil hs =>
    intro h
    exact hs (by simpa [chunksData] using h)
  | @txtSep s s' rest hs hne hsc _ ih =>
    intro h
    obtain ⟨c, s'', rfl⟩ : ∃ c s'', s' = c :: s'' := by
      cases s' with
      | nil => exact absurd rfl hne
      | cons c s'' => exact ⟨c, s'', rfl⟩
    have h' : p <:+: s ++ c :: (s'' ++ chunksData rest) := by
      simpa [chunksData, List.append_assoc] using h
    rcases infix_split_at_char (hsc c (List.mem_cons_self _ _)) h' with h'' | h''
    · exact hs h''
    · exact ih (infix_strip_forbidden
        (fun d hd => hsc d (List.mem_cons_of_mem _ hd)) hp h'')

/-! ## `TestResult` and `MetricsCollector` (reporting.py)

Python floats are modelled as rationals (all values in play are exact
binary fractions); a datetime is carried as its ISO-8601 rendering, so
`datetime.isoformat()` is the identity in the model. -/

structure TestResult where
  test_name : String
  test_class : String
  status : String
  execution_time : Rat
  timestamp : String
  endpoint : String
  method : String
  response_code : Option Int := none
  error_message : Option String := none
  request_headers : Option (List (String × String)) := none
  response_headers : Option (List (String × String)) := none
  validation_errors : Option (List String) := none
deriving DecidableEq

structure MetricsCollector where
  total_tests : Nat
  passed_tests : Nat
  failed_tests : Nat
  error_tests : Nat
  total_execution_time : Rat
  response_times : List (String × List Rat)
  status_codes : List (Int × Nat)
deriving DecidableEq

/-- `MetricsCollector.__init__`. -/
def initMetrics : MetricsCollector := ⟨0, 0, 0, 0, 0, [], []⟩

/-- `self.response_times[endpoint_key].append(t)`, creating the list on
first occurrence; a fresh key lands at the end (dict insertion order). -/
def timesAppend (d : List (String × List Rat)) (k : String) (t : Rat) :
    List (String × List Rat) :=
  if d.any (fun kv => kv.1 = k) then
    d.map (fun kv => if kv.1 = k then (kv.1, kv.2 ++ [t]) else kv)
  else d ++ [(k, [t])]

/-- `self.status_codes[c] = self.status_codes.get(c, 0) + 1`. -/
def histIncr (d : List (Int × Nat)) (c : Int) : List (Int × Nat) :=
  if d.any (fun kv => kv.1 = c) then
    d.map (fun kv => if kv.1 = c then (kv.1, kv.2 + 1) else kv)
  else d ++ [(c, 1)]

/-- `MetricsCollector.add_result` (the body under the lock).  The
response-code histogram is only touched when `result.response_code` is
truthy, i.e. present and nonzero. -/
def addResult (m : MetricsCollector) (r : TestResult) : MetricsCollector :=
  let m := { m with
    total_tests := m.total_tests + 1
    total_execution_time := m.total_execution_time + r.execution_time }
  let m :=
    if r.status = "SUCCESS" then { m with passed_tests := m.passed_tests + 1 }
    else if r.status = "FAILED" then { m with failed_tests := m.failed_tests + 1 }
    else { m with error_tests := m.error_tests + 1 }
  let m := { m with
    response_times := timesAppend m.response_times (r.method ++ " " ++ r.endpoint) r.execution_time }
  match r.response_code with
  | some c => if c ≠ 0 then { m with status_codes := histIncr m.status_codes c } else m
  | none => m

structure MetricsSnapshot where
  total_tests : Nat
  passed_tests : Nat
  failed_tests : Nat
  error_tests : Nat
  success_rate : Rat
  total_execution_time : Rat
  average_response_times : List (String × Rat)
  status_code_distribution : List (Int × Nat)
deriving DecidableEq

/-- Python `sum(times)`. -/
def ratSum (ts : List Rat) : Rat := ts.foldl (· + ·) 0

/-- `MetricsCollector.get_metrics` (the snapshot built under the lock). -/
def getMetrics (m : MetricsCollector) : MetricsSnapshot where
  total_tests := m.total_tests
  passed_tests := m.passed_tests
  failed_tests := m.failed_tests
  error_tests := m.error_tests
  success_rate :=
    if m.total_tests > 0 then (m.passed_tests : Rat) / (m.total_tests : Rat) * 100 else 0
  total_execution_time := m.total_execution_time
  average_response_times :=
    m.response_times.map (fun kv => (kv.1, ratSum kv.2 / (kv.2.length : Rat)))
  status_code_distribution := m.status_codes

/-! ## `ReportGenerator` consumer loop (reporting.py) -/

structure ReportState where
  results : List TestResult
  metrics : MetricsCollector
deriving DecidableEq

/-- One iteration of `_process_queue` after a successful dequeue:
append to the history, then ingest into the metrics. -/
def processOne (st : ReportState) (r : TestResult) : ReportState :=
  { results := st.results ++ [r], metrics := addResult st.metrics r }

/-- The `_process_queue` loop once the stop event is set: the loop
condition `not stop_event.is_set() or not queue.empty()` keeps the
consumer running while the queue is nonempty, so it dequeues and
processes entries in FIFO order until the queue is empty, then exits. -/
def drainAfterStop (st : ReportState) : List TestResult → ReportState
  | [] => st
  | r :: q => drainAfterStop (processOne st r) q

/-! ## CSV export (reporting.py `export_csv`) -/

/-- A cell value of a CSV row, mirroring the field types of
`TestResult` as `dataclasses.asdict` produces them. -/
inductive CsvCell where
  | str (s : String)
  | float (q : Rat)
  | int (n : Int)
  | cnone
  | strDict (d : List (String × String))
  | strList (xs : List String)
deriving DecidableEq

/-- `dataclasses.asdict(result)` (with the timestamp already replaced by
its `isoformat()` rendering, as `export_csv` does before writing): all
twelve dataclass fields in declaration order; absent optionals are
`None`. -/
def asdict (r : TestResult) : List (String × CsvCell) :=
  [("test_name", .str r.test_name),
   ("test_class", .str r.test_class),
   ("status", .str r.status),
   ("execution_time", .float r.execution_time),
   ("timestamp", .str r.timestamp),
   ("endpoint", .str r.endpoint),
   ("method", .str r.method),
   ("response_code", match r.response_code with | some c => .int c | none => .cnone),
   ("error_message", match r.error_message with | some e => .str e | none => .cnone),
   ("request_headers", match r.request_headers with | some h => .strDict h | none => .cnone),
   ("response_headers", match r.response_headers with | some h => .strDict h | none => .cnone),
   ("validation_errors", match r.validation_errors with | some v => .strList v | none => .cnone)]

/-- The fixed fieldnames of `export_csv`'s `csv.DictWriter`. -/
def csvFieldnames : List String :=
  ["test_name", "test_class", "status", "execution_time", "timestamp",
   "endpoint", "method", "response_code", "error_message"]

/-- `csv.DictWriter._dict_to_list` with the default
`extrasaction='raise'`: keys of the row dict outside the fieldnames
raise `ValueError`; otherwise the cells are emitted in fieldname order
(missing keys become the default restval `None`). -/
def dictToList (fieldnames : List String) (row : List (String × CsvCell)) :
    Except String (List CsvCell) :=
  let wrong := (row.map Prod.fst).filter (fun k => ¬ fieldnames.contains k)
  if wrong.isEmpty then
    .ok (fieldnames.map (fun f =>
      match row.find? (fun kv => kv.1 = f) with
      | some kv => kv.2
      | none => .cnone))
  else
    .error ("dict contains fields not in fieldnames: " ++ strJoin ", " wrong)

/-- `writer.writerow(asdict(result))` for each result in order; the
first `ValueError` propagates out of `export_csv`. -/
def writeAllRows (fieldnames : List String) :
    List (List (String × CsvCell)) → Except String (List (List CsvCell))
  | [] => .ok []
  | row :: rest => do
      let cells ← dictToList fieldnames row
      let others ← writeAllRows fieldnames rest
      .ok (cells :: others)

/-- The file produced by a successful tabular export: a header row of
fieldnames followed by one cell row per outcome. -/
structure CsvFile where
  header : List String
  rows : List (List CsvCell)
deriving DecidableEq

/-- `ReportGenerator.export_csv`: creates the output directory, opens
`os.path.join(output_dir, filename)` in `'w'` mode (overwriting any
existing file), writes the header, then one row per stored result, and
returns the file path.  A `ValueError` from the writer propagates as
`.error`. -/
def exportCsv (outputDir filename : String) (results : List TestResult) :
    Except String (String × CsvFile) := do
  let filepath := outputDir ++ "/" ++ filename
  let rows ← writeAllRows csvFieldnames (results.map asdict)
  .ok (filepath, ⟨csvFieldnames, rows⟩)

/-! ## Log writer and the filesystem (logger.py `_write_to_file`) -/

/-- `os.path.dirname` (POSIX): everything up to the final slash; the
head keeps a trailing slash only when it consists solely of slashes. -/
def dirname (p : String) : String :=
  let rev := p.data.reverse
  let tailPart := rev.dropWhile (fun c => ¬ c = '/')
  if tailPart.isEmpty then ""
  else
    let head := tailPart.reverse
    if head.all (fun c => c = '/') then String.mk head
    else String.mk (head.reverse.dropWhile (fun c => c = '/')).reverse

/-- The filesystem as a map from path to file content. -/
abbrev FileSystem := List (String × String)

def fsRead (fs : FileSystem) (path : String) : String :=
  match fs.find? (fun kv => kv.1 = path) with
  | some kv => kv.2
  | none => ""

/-- Open for append and write: the file's content grows by `content`
(the file is created empty first if absent). -/
def fsAppend (fs : FileSystem) (path content : String) : FileSystem :=
  if fs.any (fun kv => kv.1 = path) then
    fs.map (fun kv => if kv.1 = path then (kv.1, kv.2 ++ content) else kv)
  else fs ++ [(path, content)]

/-- `os.makedirs(d, exist_ok=True)`: creating directories succeeds, but
the empty path raises `FileNotFoundError` (which is an `OSError`, i.e.
an `IOError`). -/
def makedirs (d : String) : Except String Unit :=
  if d = "" then .error "[Errno 2] No such file or directory: ''"
  else .ok ()

/-- `APILogger._write_to_file`: make the parent directory of the log
file, then append `content + '\n'`; an `IOError` anywhere in the `try`
block is caught and printed, leaving the filesystem untouched.  Returns
the new filesystem and the printed error message, if any. -/
def writeToFile (logFile : String) (fs : FileSystem) (content : String) :
    FileSystem × Option String :=
  match makedirs (dirname logFile) with
  | .error e => (fs, some ("Error writing to log file: " ++ e))
  | .ok _ => (fsAppend fs logFile (content ++ "\n"), none)

/-- The `_log_writer` loop once the stop event is set: dequeue each
remaining entry in FIFO order and write it to the log file, then exit. -/
def logWriterDrain (logFile : String) (fs : FileSystem) :
    List String → FileSystem
  | [] => fs
  | e :: q => logWriterDrain logFile (writeToFile logFile fs e).1 q

/-! ## Python `repr`, for assertion messages -/

def pyReprEscapeChar (c : Char) : String :=
  if c = '\'' then "\\'"
  else if c = '\\' then "\\\\"
  else if c = '\n' then "\\n"
  else if c = '\t' then "\\t"
  else if c = '\r' then "\\r"
  else String.singleton c

mutual

/-- Model of Python `repr`/`str` for the container values we model
(f-strings interpolate containers with `repr`). -/
def pyRepr : PyVal → String
  | .str s => "'" ++ String.join (s.data.map pyReprEscapeChar) ++ "'"
  | .int n => toString n
  | .bool b => if b then "True" else "False"
  | .pynone => "None"
  | .list xs => "[" ++ strJoin ", " (pyReprItems xs) ++ "]"
  | .dict kvs => "\x7b" ++ strJoin ", " (pyReprEntries kvs) ++ "\x7d"

def pyReprItems : PyList → List String
  | .nil => []
  | .cons x xs => pyRepr x :: pyReprItems xs

def pyReprEntries : PyDict → List String
  | .nil => []
  | .cons k v kvs =>
      ("'" ++ String.join (k.data.map pyReprEscapeChar) ++ "': " ++ pyRepr v) ::
        pyReprEntries kvs

end

/-! ## `api_test` validation pipeline (assertions.py) -/

/-- The response the wrapper works with: its status code, its headers,
the headers of the request that produced it, and the result of
`response.json()` (`none` models a `JSONDecodeError`). -/
structure HttpResponse where
  status_code : Int
  headers : List (String × String)
  request_headers : List (String × String)
  jsonBody : Option PyVal
deriving DecidableEq

/-- The external schema-validator capability
(`jsonschema.validate`): `none` means the instance conforms, `some msg`
carries the `ValidationError` message. -/
def SchemaValidator : Type := PyVal → PyVal → Option String

/-- `validate_status_code`: `some` is the raised `AssertionError`'s
message. -/
def validateStatusCode (resp : HttpResponse) (expected : Int) : Option String :=
  if resp.status_code = expected then none
  else some ("Expected status code " ++ toString expected ++ ", got " ++
    toString resp.status_code)

/-- `validate_json_schema`: a body that is not valid JSON raises
`AssertionError('Response is not valid JSON')`; a schema violation
raises with the validator's message. -/
def validateJsonSchema (validator : SchemaValidator) (resp : HttpResponse)
    (schema : PyVal) : Option String :=
  match resp.jsonBody with
  | none => some "Response is not valid JSON"
  | some j =>
      match validator j schema with
      | some msg => some ("JSON schema validation failed: " ++ msg)
      | none => none

/-- `validate_headers`: the first failing assertion raises. -/
def validateHeadersCheck (respHeaders : List (String × String)) :
    List (String × String) → Option String
  | [] => none
  | (hk, hv) :: rest =>
      match respHeaders.find? (fun kv => kv.1 = hk) with
      | none => some ("Header '" ++ hk ++ "' not found in response")
      | some kv =>
          if kv.2 = hv then validateHeadersCheck respHeaders rest
          else some ("Expected header '" ++ hk ++ "' to be '" ++ hv ++
            "', got '" ++ kv.2 ++ "'")

/-- `validate_json_content`. -/
def validateJsonContent (resp : HttpResponse) (expected : PyVal) : Option String :=
  match resp.jsonBody with
  | none => some "Response is not valid JSON"
  | some j =>
      if j = expected then none
      else some ("Expected content " ++ pyRepr expected ++ ", got " ++ pyRepr j)

/-- The keyword configuration of the `api_test` decorator. -/
structure ApiTestConfig where
  endpoint : String
  method : String := "GET"
  expected_status : Int := 200
  expected_schema : Option PyVal := none
  expected_headers : Option (List (String × String)) := none
  expected_content : Option PyVal := none

/-- The validation block of the `api_test` wrapper: each configured
check runs inside its own `try`, appending its `AssertionError` message
to `validation_errors`, so a failed check never prevents the later
checks from running.  The optional checks are guarded by Python
truthiness (`if expected_schema:` …). -/
def runValidations (validator : SchemaValidator) (cfg : ApiTestConfig)
    (resp : HttpResponse) : List String :=
  let errs : List String := []
  let errs :=
    match validateStatusCode resp cfg.expected_status with
    | some m => errs ++ [m]
    | none => errs
  let errs :=
    match cfg.expected_schema with
    | some sch =>
        if pyTruthy sch then
          match validateJsonSchema validator resp sch with
          | some m => errs ++ [m]
          | none => errs
        else errs
    | none => errs
  let errs :=
    match cfg.expected_headers with
    | some hs =>
        if ¬ hs.isEmpty then
          match validateHeadersCheck resp.headers hs with
          | some m => errs ++ [m]
          | none => errs
        else errs
    | none => errs
  let errs :=
    match cfg.expected_content with
    | some ec =>
        if pyTruthy ec then
          match validateJsonContent resp ec with
          | some m => errs ++ [m]
          | none => errs
        else errs
    | none => errs
  errs

/-- The outcome record the wrapper submits when the request itself
succeeded and the validations have run: the response details are stored
on the record; when any validation failed the status becomes `FAILED`,
`error_message` joins the messages and `validation_errors` keeps the
list.  (The `AssertionError` the wrapper then raises changes nothing
further: the generic handler rewrites the record only for non-assertion
faults.) -/
def apiTestOutcome (validator : SchemaValidator) (cfg : ApiTestConfig)
    (base : TestResult) (resp : HttpResponse) : TestResult :=
  let tr := { base with
    response_code := some resp.status_code
    request_headers := some resp.request_headers
    response_headers := some resp.headers }
  let errs := runValidations validator cfg resp
  if errs.isEmpty then tr
  else { tr with
    status := "FAILED"
    error_message := some (strJoin "\n" errs)
    validation_errors := some errs }

/-! ## Heap model for the frame claim (logger.py)

Python dicts are mutable objects passed by reference.  To state that
`log_request` never mutates the caller's header/body objects, dict
objects live on an explicit heap and the source's stores
(`body[key] = '*****'`, performed after `body = body.copy()`) become
heap updates. -/

/-- A dict object: its entries, in insertion order. -/
abbrev DictObj := List (String × PyVal)

/-- The heap: dict objects indexed by reference. -/
abbrev Heap := List DictObj

def heapGet (h : Heap) (r : Nat) : DictObj := h.getD r []

/-- `dict.copy()`: allocate a fresh object holding the same entries. -/
def heapAlloc (h : Heap) (o : DictObj) : Heap × Nat := (h ++ [o], h.length)

def dictObjContains (d : DictObj) (k : String) : Bool :=
  d.any (fun kv => kv.1 = k)

/-- `obj[k] = v` within one object: the stored value under `k` is
replaced (a Python dict holds `k` at most once). -/
def dictObjSet (d : DictObj) (k : String) (v : PyVal) : DictObj :=
  d.map (fun kv => if kv.1 = k then (kv.1, v) else kv)

/-- `obj[k] = v` through a reference: a store into the heap. -/
def heapSetKey (h : Heap) (r : Nat) (k : String) (v : PyVal) : Heap :=
  h.set r (dictObjSet (heapGet h r) k v)

def dictObjToPyDict : DictObj → PyDict
  | [] => .nil
  | (k, v) :: rest => .cons k v (dictObjToPyDict rest)

/-- How a body argument reaches `_format_body`: a reference to a
caller-owned dict object, or an immutable value. -/
inductive BodyArg where
  | ref (r : Nat)
  | val (v : PyVal)

/-- `_format_body` with the heap explicit.  For a dict body the source
runs `body = body.copy()` (a fresh allocation) and then masks the
sensitive keys by storing into the copy; no other case performs a
store. -/
def formatBodyOnHeap (h : Heap) : BodyArg → String × Heap
  | .ref r =>
      let d := heapGet h r
      if d.isEmpty then ("", h)
      else
        let alloc := heapAlloc h d
        let h2 := sensitiveBodyKeys.foldl
          (fun hh k =>
            if dictObjContains (heapGet hh alloc.2) k then
              heapSetKey hh alloc.2 k (.str maskStr)
            else hh) alloc.1
        (pyDumps 0 (.dict (dictObjToPyDict (heapGet h2 alloc.2))), h2)
  | .val v => (formatBody v, h)

/-- Projection for header values (the logger's headers have type
`Dict[str, str]`, so the stored values are strings). -/
def pyStrVal : PyVal → String
  | .str s => s
  | _ => ""

/-- `log_request` with the heap explicit: `_format_headers` only reads
the caller's dict (its loop rebinds a local `value`, it never stores),
`_format_body` runs on the heap as above, and the entry string is
assembled exactly as in `logRequestEntry`. -/
def logRequestOnHeap (ts method url : String) (h : Heap)
    (headersRef : Option Nat) (body : Option BodyArg) : String × Heap :=
  let entry := "[" ++ ts ++ "Z] REQUEST:\n" ++ method ++ " " ++ url ++ "\n"
  let hdrs := match headersRef with
    | some r => heapGet h r
    | none => []
  let entry := if hdrs.isEmpty then entry
    else entry ++ formatHeaders (hdrs.map (fun kv => (kv.1, pyStrVal kv.2))) ++ "\n"
  match body with
  | some b =>
      let truthy : Bool := match b with
        | .ref r => ¬ (heapGet h r).isEmpty
        | .val v => pyTruthy v
      if truthy then
        let fb := formatBodyOnHeap h b
        (entry ++ "Body: " ++ fb.1 ++ "\n", fb.2)
      else (entry, h)
  | none => (entry, h)

/-! ## Chunk decompositions of the formatted strings

These definitions present the formatted entries as alternating
content/separator chunk lists, for the masking theorems. -/

/-- The value printed on a header line (`_format_headers`). -/
def headerLineValue (kv : String × String) : String :=
  if sensitiveHeaderKeys.contains (pyLower kv.1) then maskStr else kv.2

/-- The chunk decomposition of `formatHeaders`. -/
def headerChunks : List (String × String) → List LogChunk
  | [] => []
  | [kv] => [.txt kv.1.data, .sep (": ").data, .txt (headerLineValue kv).data]
  | kv :: rest =>
      [.txt kv.1.data, .sep (": ").data, .txt (headerLineValue kv).data,
        .sep ("\n").data] ++ headerChunks rest

/-- The chunk decomposition of one rendered dict entry at level 1. -/
def dictEntryChunks (k : String) (v : PyVal) : List LogChunk :=
  [.sep ("  \"").data, .txt (jsonEscape k).data, .sep ("\": ").data,
    .txt (pyDumps 1 v).data]

/-- The chunk decomposition of the joined dict entries at level 1. -/
def dictChunks : PyDict → List LogChunk
  | .nil => []
  | .cons k v .nil => dictEntryChunks k v
  | .cons k v rest => dictEntryChunks k v ++ (.sep (",\n").data :: dictChunks rest)

/-- The chunks of the optional `Body:` block. -/
def bodyChunksOf : Option String → List LogChunk
  | some fb => [.sep ("Body: ").data, .txt fb.data, .sep ("\n").data]
  | none => []

/-- The chunk decomposition of a `log_request` entry with a nonempty
header map; `bodyTxt` is the formatted body when one is printed. -/
def requestEntryChunks (ts method url : String)
    (headers : List (String × String)) (bodyTxt : Option String) : List LogChunk :=
  [.sep ("[").data, .txt ts.data, .sep ("Z] REQUEST:\n").data, .txt method.data,
    .sep (" ").data, .txt url.data, .sep ("\n").data] ++
  headerChunks headers ++ [.sep ("\n").data] ++ bodyChunksOf bodyTxt

/-- The chunk decomposition of a `log_response` entry with a nonempty
header map. -/
def responseEntryChunks (ts durStr codeStr : String)
    (headers : List (String × String)) (bodyTxt : Option String) : List LogChunk :=
  [.sep ("[").data, .txt ts.data, .sep ("Z] RESPONSE (").data, .txt durStr.data,
    .sep ("m").data, .txt ("s):\nStatus:").data, .sep (" ").data,
    .txt codeStr.data, .sep ("\n").data] ++
  headerChunks headers ++ [.sep ("\n").data] ++ bodyChunksOf bodyTxt ++
  [.sep (String.mk (List.replicate 40 '-') ++ "\n").data]

/-! # Theorems -/

/-! ## Metrics counter lemmas -/

theorem addResult_total (m : MetricsCollector) (r : TestResult) :
    (addResult m r).total_tests = m.total_tests + 1 := by
  cases hrc : r.response_code with
  | none => simp [addResult, hrc] <;> split_ifs <;> rfl
  | some c => by_cases hc : c ≠ 0 <;> simp [addResult, hrc, hc] <;> split_ifs <;> rfl

theorem addResult_passed (m : MetricsCollector) (r : TestResult) :
    (addResult m r).passed_tests =
      m.passed_tests + (if r.status = "SUCCESS" then 1 else 0) := by
  cases hrc : r.response_code with
  | none => simp [addResult, hrc] <;> split_ifs <;> rfl
  | some c => by_cases hc : c ≠ 0 <;> simp [addResult, hrc, hc] <;> split_ifs <;> rfl

theorem addResult_failed (m : MetricsCollector) (r : TestResult) :
    (addResult m r).failed_tests =
      m.failed_tests + (if r.status = "FAILED" then 1 else 0) := by
  cases hrc : r.response_code with
  | none =>
      by_cases hs : r.status = "SUCCESS" <;> by_cases hf : r.status = "FAILED" <;>
        simp [addResult, hrc, hs, hf]
  | some c =>
      by_cases hc : c ≠ 0 <;> by_cases hs : r.status = "SUCCESS" <;>
        by_cases hf : r.status = "FAILED" <;> simp [addResult, hrc, hc, hs, hf]

theorem addResult_error (m : MetricsCollector) (r : TestResult) :
    (addResult m r).error_tests =
      m.error_tests +
        (if r.status ≠ "SUCCESS" ∧ r.status ≠ "FAILED" then 1 else 0) := by
  cases hrc : r.response_code with
  | none =>
      by_cases hs : r.status = "SUCCESS" <;> by_cases hf : r.status = "FAILED" <;>
        simp [addResult, hrc, hs, hf]
  | some c =>
      by_cases hc : c ≠ 0 <;> by_cases hs : r.status = "SUCCESS" <;>
        by_cases hf : r.status = "FAILED" <;> simp [addResult, hrc, hc, hs, hf]

theorem foldl_addResult_total (rs : List TestResult) :
    ∀ m : MetricsCollector, (rs.foldl addResult m).total_tests = m.total_tests + rs.length := by
  induction rs with
  | nil => intro m; simp
  | cons r rs ih =>
      intro m
      simp only [List.foldl_cons, ih, addResult_total, List.length_cons]
      omega

theorem foldl_addResult_passed (rs : List TestResult) :
    ∀ m : MetricsCollector, (rs.foldl addResult m).passed_tests =
      m.passed_tests + (rs.filter (fun r => r.status = "SUCCESS")).length := by
  induction rs with
  | nil => intro m; simp
  | cons r rs ih =>
      intro m
      simp only [List.foldl_cons, ih, addResult_passed]
      by_cases hs : r.status = "SUCCESS" <;> simp [hs, List.filter_cons] <;> omega

theorem foldl_addResult_failed (rs : List TestResult) :
    ∀ m : MetricsCollector, (rs.foldl addResult m).failed_tests =
      m.failed_tests + (rs.filter (fun r => r.status = "FAILED")).length := by
  induction rs with
  | nil => intro m; simp
  | cons r rs ih =>
      intro m
      simp only [List.foldl_cons, ih, addResult_failed]
      by_cases hf : r.status = "FAILED" <;> simp [hf, List.filter_cons] <;> omega

theorem foldl_addResult_error (rs : List TestResult) :
    ∀ m : MetricsCollector, (rs.foldl addResult m).error_tests =
      m.error_tests +
        (rs.filter (fun r => r.status ≠ "SUCCESS" ∧ r.status ≠ "FAILED")).length := by
  induction rs with
  | nil => intro m; simp
  | cons r rs ih =>
      intro m
      simp only [List.foldl_cons, ih, addResult_error]
      by_cases hs : r.status = "SUCCESS" <;> by_cases hf : r.status = "FAILED" <;>
        simp [hs, hf, List.filter_cons] <;> omega

theorem status_filter_lengths (rs : List TestResult) :
    (rs.filter (fun r => r.status = "SUCCESS")).length +
      (rs.filter (fun r => r.status = "FAILED")).length +
      (rs.filter (fun r => r.status ≠ "SUCCESS" ∧ r.status ≠ "FAILED")).length
      = rs.length := by
  induction rs with
  | nil => rfl
  | cons r rs ih =>
      by_cases hs : r.status = "SUCCESS" <;> by_cases hf : r.status = "FAILED" <;>
        simp [List.filter_cons, hs, hf] at ih ⊢ <;> omega

/-- C9: for every sequence of N submitted outcomes, after the consumer
has drained them the aggregator reports total == N and
passed + failed + error == N; and each single ingest increments total by
one and exactly one of the passed/failed/error counters, chosen by the
outcome's status. -/
theorem claim_c9_counter_invariant (rs : List TestResult) :
    ((rs.foldl addResult initMetrics).total_tests = rs.length ∧
      (rs.foldl addResult initMetrics).passed_tests +
        (rs.foldl addResult initMetrics).failed_tests +
        (rs.foldl addResult initMetrics).error_tests = rs.length) ∧
    (∀ (m : MetricsCollector) (r : TestResult),
      (addResult m r).total_tests = m.total_tests + 1 ∧
      (addResult m r).passed_tests =
        m.passed_tests + (if r.status = "SUCCESS" then 1 else 0) ∧
      (addResult m r).failed_tests =
        m.failed_tests + (if r.status = "FAILED" then 1 else 0) ∧
      (addResult m r).error_tests =
        m.error_tests +
          (if r.status ≠ "SUCCESS" ∧ r.status ≠ "FAILED" then 1 else 0) ∧
      (if r.status = "SUCCESS" then 1 else 0) +
        (if r.status = "FAILED" then 1 else 0) +
        (if r.status ≠ "SUCCESS" ∧ r.status ≠ "FAILED" then 1 else 0) = 1) := by
  constructor
  · refine ⟨by simpa [initMetrics] using foldl_addResult_total rs initMetrics, ?_⟩
    have hp : (rs.foldl addResult initMetrics).passed_tests =
        (rs.filter (fun r => r.status = "SUCCESS")).length := by
      simpa [initMetrics] using foldl_addResult_passed rs initMetrics
    have hf : (rs.foldl addResult initMetrics).failed_tests =
        (rs.filter (fun r => r.status = "FAILED")).length := by
      simpa [initMetrics] using foldl_addResult_failed rs initMetrics
    have he : (rs.foldl addResult initMetrics).error_tests =
        (rs.filter (fun r => r.status ≠ "SUCCESS" ∧ r.status ≠ "FAILED")).length := by
      simpa [initMetrics] using foldl_addResult_error rs initMetrics
    have hsum := status_filter_lengths rs
    omega
  · intro m r
    refine ⟨addResult_total m r, addResult_passed m r, addResult_failed m r,
      addResult_error m r, ?_⟩
    by_cases hs : r.status = "SUCCESS" <;> by_cases hf : r.status = "FAILED" <;>
      simp [hs, hf]

/-- C8: the snapshot's success rate of an aggregator that has ingested
any sequence of outcomes is 0 when the total count is 0 and otherwise
is exactly passed/total×100 (as an exact rational — no division by
zero is performed). -/
theorem claim_c8_success_rate (rs : List TestResult) :
    (getMetrics (rs.foldl addResult initMetrics)).success_rate =
      if rs.length = 0 then 0
      else ((rs.filter (fun r => r.status = "SUCCESS")).length : Rat) /
        (rs.length : Rat) * 100 := by
  have ht : (rs.foldl addResult initMetrics).total_tests = rs.length := by
    simpa [initMetrics] using foldl_addResult_total rs initMetrics
  have hp : (rs.foldl addResult initMetrics).passed_tests =
      (rs.filter (fun r => r.status = "SUCCESS")).length := by
    simpa [initMetrics] using foldl_addResult_passed rs initMetrics
  simp only [getMetrics, ht, hp]
  by_cases h : rs.length = 0
  · simp [h]
  · simp [h, Nat.pos_of_ne_zero h]

/-- C7: ingesting exactly the two scenario outcomes (t1 SUCCESS 0.5s
GET /users 200, then t2 FAILED 1.5s GET /users 500 with one validation
error) into an empty aggregator yields the snapshot total=2, passed=1,
failed=1, error=0, success_rate=50, average GET /users latency 1.0 and
status-code histogram {200: 1, 500: 1}. -/
theorem claim_c7_metrics_scenario :
    getMetrics (addResult (addResult initMetrics
      { test_name := "t1", test_class := "APITests", status := "SUCCESS",
        execution_time := 1/2, timestamp := "2024-01-01T00:00:00",
        endpoint := "/users", method := "GET", response_code := some 200 })
      { test_name := "t2", test_class := "APITests", status := "FAILED",
        execution_time := 3/2, timestamp := "2024-01-01T00:00:01",
        endpoint := "/users", method := "GET", response_code := some 500,
        validation_errors := some ["bad field"] }) =
    { total_tests := 2, passed_tests := 1, failed_tests := 1, error_tests := 0,
      success_rate := 50, total_execution_time := 2,
      average_response_times := [("GET /users", 1)],
      status_code_distribution := [(200, 1), (500, 1)] } := by
  simp [getMetrics, addResult, initMetrics, timesAppend, histIncr, ratSum]
  norm_num

/-- C5: once the stop signal is set, the report consumer drains the
queue completely before exiting: every queued outcome is appended to
the history exactly once, in FIFO order, and ingested into the metrics
exactly once — no loss and no duplication. -/
theorem claim_c5_drain_on_stop (st : ReportState) (q : List TestResult) :
    (drainAfterStop st q).results = st.results ++ q ∧
    (drainAfterStop st q).metrics = q.foldl addResult st.metrics := by
  induction q generalizing st with
  | nil => simp [drainAfterStop]
  | cons r qs ih =>
      have h := ih (processOne st r)
      have hstep : drainAfterStop st (r :: qs) = drainAfterStop (processOne st r) qs := rfl
      refine ⟨?_, ?_⟩
      · rw [hstep, h.1]; simp [processOne]
      · rw [hstep, h.2]; simp [processOne, List.foldl_cons]

/-- C1 (code bug): `export_csv` succeeds only on an empty history.  For
any non-empty outcome history the first `writerow` raises `ValueError`,
because `dataclasses.asdict` hands the `DictWriter` the keys
`request_headers`, `response_headers` and `validation_errors`, which
are not among the nine configured fieldnames and the writer's default
`extrasaction` is `'raise'`.  So no non-empty export ever writes a row
or returns the file path, contradicting the claim. -/
theorem claim_c1_export_csv_raises_on_nonempty (dir fn : String)
    (r : TestResult) (rs : List TestResult) :
    exportCsv dir fn [] = .ok (dir ++ "/" ++ fn, ⟨csvFieldnames, []⟩) ∧
    exportCsv dir fn (r :: rs) =
      .error ("dict contains fields not in fieldnames: " ++
        strJoin ", " ["request_headers", "response_headers", "validation_errors"]) := by
  exact ⟨rfl, rfl⟩

/-- C2 (code bug): for the default bare log-file name `api_logs.txt`
(no directory component), `_write_to_file` never appends anything: the
unconditional `os.makedirs(os.path.dirname(log_file))` receives the
empty string and raises `FileNotFoundError`, which the `except IOError`
arm swallows after printing, so the filesystem is left unchanged — and
hence the drain loop writes nothing for any queue of entries. -/
theorem claim_c2_bare_filename_write_is_dropped (fs : FileSystem) (entry : String)
    (queue : List String) :
    writeToFile "api_logs.txt" fs entry =
      (fs, some "Error writing to log file: [Errno 2] No such file or directory: ''") ∧
    logWriterDrain "api_logs.txt" fs queue = fs := by
  refine ⟨rfl, ?_⟩
  induction queue with
  | nil => rfl
  | cons e q ih => simpa [logWriterDrain] using ih

/-- C6: with a status check expecting 200 and a (truthy) schema check
configured, a 404 response whose body fails the schema check yields a
FAILED outcome carrying exactly two validation messages — the status
mismatch and the schema failure — so the second check ran even though
the first had already failed. -/
theorem claim_c6_checks_accumulate (validator : SchemaValidator)
    (ep mth : String) (sch : PyVal) (resp : HttpResponse) (base : TestResult)
    (msg : String)
    (hsch : pyTruthy sch = true)
    (hstatus : resp.status_code = 404)
    (hschema : validateJsonSchema validator resp sch = some msg) :
    (apiTestOutcome validator
        { endpoint := ep, method := mth, expected_status := 200,
          expected_schema := some sch } base resp).status = "FAILED" ∧
    (apiTestOutcome validator
        { endpoint := ep, method := mth, expected_status := 200,
          expected_schema := some sch } base resp).validation_errors =
      some ["Expected status code 200, got 404", msg] ∧
    ((apiTestOutcome validator
        { endpoint := ep, method := mth, expected_status := 200,
          expected_schema := some sch } base resp).validation_errors.getD []).length = 2 := by
  have hrun : runValidations validator
      { endpoint := ep, method := mth, expected_status := 200,
        expected_schema := some sch } resp =
      ["Expected status code 200, got 404", msg] := by
    simp [runValidations, validateStatusCode, hstatus, hsch, hschema]
    decide
  simp [apiTestOutcome, hrun]

/-- Witness for C6 at a concrete configuration: a validator that
rejects the body of a concrete 404 response. -/
theorem claim_c6_checks_accumulate_witness :
    (pyTruthy (.dict (.cons "type" (.str "object") .nil)) = true ∧
      ({ status_code := 404, headers := [], request_headers := [],
         jsonBody := some (.str "oops") } : HttpResponse).status_code = 404 ∧
      validateJsonSchema (fun _ _ => some "bad field")
        { status_code := 404, headers := [], request_headers := [],
          jsonBody := some (.str "oops") }
        (.dict (.cons "type" (.str "object") .nil)) =
        some "JSON schema validation failed: bad field") ∧
    ((apiTestOutcome (fun _ _ => some "bad field")
        { endpoint := "/users", method := "GET", expected_status := 200,
          expected_schema := some (.dict (.cons "type" (.str "object") .nil)) }
        { test_name := "t", test_class := "C", status := "SUCCESS",
          execution_time := 0, timestamp := "2024-01-01T00:00:00",
          endpoint := "/users", method := "GET" }
        { status_code := 404, headers := [], request_headers := [],
          jsonBody := some (.str "oops") }).status = "FAILED" ∧
      (apiTestOutcome (fun _ _ => some "bad field")
        { endpoint := "/users", method := "GET", expected_status := 200,
          expected_schema := some (.dict (.cons "type" (.str "object") .nil)) }
        { test_name := "t", test_class := "C", status := "SUCCESS",
          execution_time := 0, timestamp := "2024-01-01T00:00:00",
          endpoint := "/users", method := "GET" }
        { status_code := 404, headers := [], request_headers := [],
          jsonBody := some (.str "oops") }).validation_errors =
        some ["Expected status code 200, got 404",
          "JSON schema validation failed: bad field"] ∧
      ((apiTestOutcome (fun _ _ => some "bad field")
        { endpoint := "/users", method := "GET", expected_status := 200,
          expected_schema := some (.dict (.cons "type" (.str "object") .nil)) }
        { test_name := "t", test_class := "C", status := "SUCCESS",
          execution_time := 0, timestamp := "2024-01-01T00:00:00",
          endpoint := "/users", method := "GET" }
        { status_code := 404, headers := [], request_headers := [],
          jsonBody := some (.str "oops") }).validation_errors.getD []).length = 2) :=
  ⟨⟨rfl, rfl, rfl⟩, claim_c6_checks_accumulate (fun _ _ => some "bad field")
    "/users" "GET" (.dict (.cons "type" (.str "object") .nil))
    { status_code := 404, headers := [], request_headers := [],
      jsonBody := some (.str "oops") }
    { test_name := "t", test_class := "C", status := "SUCCESS",
      execution_time := 0, timestamp := "2024-01-01T00:00:00",
      endpoint := "/users", method := "GET" }
    "JSON schema validation failed: bad field" rfl rfl rfl⟩

/-! ## Heap lemmas for the frame claim -/

theorem heapGet_set_ne {h : Heap} {rc r : Nat} (hne : r ≠ rc) (o : DictObj) :
    heapGet (h.set rc o) r = heapGet h r := by
  simp [heapGet, List.getD_eq_getElem?_getD, List.getElem?_set_ne (Ne.symm hne)]

theorem heapGet_append_lt {h : Heap} {r : Nat} (hr : r < h.length) (o : DictObj) :
    heapGet (h ++ [o]) r = heapGet h r := by
  simp [heapGet, List.getD_eq_getElem?_getD, List.getElem?_append_left hr]

theorem heapGet_mask_fold_ne (keys : List String) (rc : Nat) :
    ∀ (hh : Heap) (r : Nat), r ≠ rc →
      heapGet (keys.foldl
        (fun hh k =>
          if dictObjContains (heapGet hh rc) k then heapSetKey hh rc k (.str maskStr)
          else hh) hh) r = heapGet hh r := by
  induction keys with
  | nil => intro hh r _; rfl
  | cons k ks ih =>
      intro hh r hr
      simp only [List.foldl_cons]
      rw [ih _ r hr]
      by_cases hc : dictObjContains (heapGet hh rc) k
      · simp only [hc, if_true, heapSetKey]
        exact heapGet_set_ne hr _
      · simp [hc]

/-- `_format_body` leaves every pre-existing heap object unchanged. -/
theorem formatBodyOnHeap_frame (h : Heap) (b : BodyArg) (r : Nat)
    (hr : r < h.length) :
    heapGet ((formatBodyOnHeap h b).2) r = heapGet h r := by
  rcases b with rb | v
  · by_cases hempty : (heapGet h rb).isEmpty
    · simp [formatBodyOnHeap, hempty]
    · have hne : r ≠ h.length := Nat.ne_of_lt hr
      simp only [formatBodyOnHeap, hempty, Bool.false_eq_true, if_false,
        ite_false, heapAlloc]
      rw [heapGet_mask_fold_ne sensitiveBodyKeys h.length _ r hne,
        heapGet_append_lt hr]
  · rfl

/-- C10: `log_request` never mutates a caller-owned dict object: after
the call, every object that existed on the heap before the call — in
particular the caller's header dict and body dict — holds exactly the
entries it held before.  The body masking operates on the fresh object
allocated by `body.copy()`. -/
theorem claim_c10_log_request_frame (ts mth url : String) (h : Heap)
    (headersRef : Option Nat) (body : Option BodyArg) (r : Nat)
    (hr : r < h.length) :
    heapGet ((logRequestOnHeap ts mth url h headersRef body).2) r = heapGet h r := by
  have hfb : ∀ b : BodyArg, heapGet ((formatBodyOnHeap h b).2) r = heapGet h r :=
    fun b => formatBodyOnHeap_frame h b r hr
  rcases body with _ | b
  · rfl
  rcases b with rb | v
  · by_cases hempty : (heapGet h rb).isEmpty <;>
      simp [logRequestOnHeap, hempty, hfb (BodyArg.ref rb)]
  · by_cases htr : pyTruthy v <;>
      simp [logRequestOnHeap, htr, hfb (BodyArg.val v)]

/-- Witness for C10: a concrete heap holding a header dict and a body
dict with a password field; both objects are unchanged by the call. -/
theorem claim_c10_log_request_frame_witness :
    (0 < ([[("Authorization", PyVal.str "secret")],
        [("password", PyVal.str "hunter2")]] : Heap).length ∧
      1 < ([[("Authorization", PyVal.str "secret")],
        [("password", PyVal.str "hunter2")]] : Heap).length) ∧
    heapGet ((logRequestOnHeap "2024-01-01T00:00:00" "POST" "/login"
        [[("Authorization", PyVal.str "secret")],
          [("password", PyVal.str "hunter2")]]
        (some 0) (some (.ref 1))).2) 1 = [("password", PyVal.str "hunter2")] := by
  refine ⟨⟨by decide, by decide⟩, ?_⟩
  rw [claim_c10_log_request_frame "2024-01-01T00:00:00" "POST" "/login"
    [[("Authorization", PyVal.str "secret")], [("password", PyVal.str "hunter2")]]
    (some 0) (some (.ref 1)) 1 (by decide)]
  rfl

/-! ## Masking lemmas (logger formatting) -/

theorem strContains_eq_false_iff {s pat : String} :
    strContains s pat = false ↔ ¬ pat.data <:+: s.data := by
  simp [strContains]

theorem chunksData_append (a b : List LogChunk) :
    chunksData (a ++ b) = chunksData a ++ chunksData b := by
  simp [chunksData]

/-- `formatHeaders` is the concatenation of its chunk decomposition. -/
theorem formatHeaders_data (hs : List (String × String)) :
    (formatHeaders hs).data = chunksData (headerChunks hs) := by
  induction hs with
  | nil => rfl
  | cons kv rest ih =>
      cases rest with
      | nil =>
          by_cases hsen : pyLower kv.1 ∈ sensitiveHeaderKeys <;>
            simp [formatHeaders, headerChunks, strJoin, headerLineValue, chunksData,
              LogChunk.chars, hsen, String.data_append, List.append_assoc]
      | cons kv2 rest2 =>
          have hstep : formatHeaders (kv :: kv2 :: rest2) =
              (if sensitiveHeaderKeys.contains (pyLower kv.1) then kv.1 ++ ": " ++ maskStr
               else kv.1 ++ ": " ++ kv.2) ++ "\n" ++ formatHeaders (kv2 :: rest2) := by
            simp [formatHeaders, strJoin]
          by_cases hsen : pyLower kv.1 ∈ sensitiveHeaderKeys <;>
            simp [hstep, headerChunks, headerLineValue, chunksData, LogChunk.chars,
              hsen, String.data_append, List.append_assoc, ih, chunksData_append]

/-- The header block's chunks are well formed whenever the secret
appears in no header key and in no non-sensitive header value — the
sensitive values are replaced by the all-asterisk marker and cannot
contain it. -/
theorem headerChunks_ok {p : List Char} (hp : p ≠ [])
    (hcolon : ':' ∉ p) (hspace : ' ' ∉ p) (hnl : '\n' ∉ p) (hstar : '*' ∉ p)
    (s' : List Char) (r' : List LogChunk) (hne : s' ≠ [])
    (hsc : ∀ c ∈ s', c ∉ p) (hrest : ChunksOk p (.sep s' :: r')) :
    ∀ hs : List (String × String),
      (∀ kv ∈ hs, ¬ p <:+: kv.1.data) →
      (∀ kv ∈ hs, pyLower kv.1 ∉ sensitiveHeaderKeys → ¬ p <:+: kv.2.data) →
      ChunksOk p (headerChunks hs ++ .sep s' :: r') := by
  have hcolonsp : ∀ c ∈ (": " : String).data, c ∉ p := by
    intro c hc
    rcases (show c = ':' ∨ c = ' ' by simpa using hc) with rfl | rfl
    exacts [hcolon, hspace]
  have hnlc : ∀ c ∈ ("\n" : String).data, c ∉ p := by
    intro c hc
    rcases (show c = '\n' by simpa using hc) with rfl
    exact hnl
  have hr' : ChunksOk p r' := by cases hrest with | sep _ h => exact h
  intro hs
  induction hs with
  | nil => intro _ _; simpa [headerChunks] using hrest
  | cons kv rest ih =>
      intro hkeys hvals
      have hk : ¬ p <:+: kv.1.data := hkeys kv (by simp)
      have hw : ¬ p <:+: (headerLineValue kv).data := by
        by_cases hsen : pyLower kv.1 ∈ sensitiveHeaderKeys
        · have hmv : (headerLineValue kv).data = maskStr.data := by
            simp [headerLineValue, hsen]
          rw [hmv]
          refine not_infix_of_forbidden ?_ hp
          intro c hc
          rcases (show c = '*' by simpa [maskStr] using hc) with rfl
          exact hstar
        · have hmv : (headerLineValue kv).data = kv.2.data := by
            simp [headerLineValue, hsen]
          rw [hmv]
          exact hvals kv (by simp) hsen
      cases rest with
      | nil =>
          simp only [headerChunks, List.cons_append, List.nil_append]
          exact ChunksOk.txtSep hk (by decide) hcolonsp
            (ChunksOk.txtSep hw hne hsc hr')
      | cons kv2 rest2 =>
          have ihr := ih (fun kv h => hkeys kv (by simp [h]))
            (fun kv h => hvals kv (by simp [h]))
          simp only [headerChunks, List.cons_append, List.append_assoc,
            List.nil_append] at ihr ⊢
          exact ChunksOk.txtSep hk (by decide) hcolonsp
            (ChunksOk.txtSep hw (by decide) hnlc ihr)

theorem logRequestEntry_data_of_body_none (ts m u : String)
    (hs : List (String × String)) (hne : hs ≠ []) :
    (logRequestEntry ts m u hs none).data =
      chunksData (requestEntryChunks ts m u hs none) := by
  have hemp : hs.isEmpty = false := by simp [hne]
  simp [logRequestEntry, requestEntryChunks, bodyChunksOf, chunksData,
    List.map_append, List.flatten_append, LogChunk.chars, hemp,
    String.data_append, List.append_assoc, formatHeaders_data]

theorem logRequestEntry_data_of_body_falsy (ts m u : String)
    (hs : List (String × String)) (hne : hs ≠ []) (b : PyVal)
    (hb : pyTruthy b = false) :
    (logRequestEntry ts m u hs (some b)).data =
      chunksData (requestEntryChunks ts m u hs none) := by
  have hemp : hs.isEmpty = false := by simp [hne]
  simp [logRequestEntry, requestEntryChunks, bodyChunksOf, chunksData,
    List.map_append, List.flatten_append, LogChunk.chars, hemp, hb,
    String.data_append, List.append_assoc, formatHeaders_data]

theorem logRequestEntry_data_of_body_truthy (ts m u : String)
    (hs : List (String × String)) (hne : hs ≠ []) (b : PyVal)
    (hb : pyTruthy b = true) :
    (logRequestEntry ts m u hs (some b)).data =
      chunksData (requestEntryChunks ts m u hs (some (formatBody b))) := by
  have hemp : hs.isEmpty = false := by simp [hne]
  simp [logRequestEntry, requestEntryChunks, bodyChunksOf, chunksData,
    List.map_append, List.flatten_append, LogChunk.chars, hemp, hb,
    String.data_append, List.append_assoc, formatHeaders_data]

theorem logResponseEntry_data_of_body_none (ts : String) (durMs code : Int)
    (hs : List (String × String)) (hne : hs ≠ []) :
    (logResponseEntry ts durMs code hs none).data =
      chunksData (responseEntryChunks ts (toString durMs) (toString code) hs none) := by
  have hemp : hs.isEmpty = false := by simp [hne]
  simp [logResponseEntry, responseEntryChunks, bodyChunksOf, chunksData,
    List.map_append, List.flatten_append, LogChunk.chars, hemp,
    String.data_append, List.append_assoc, formatHeaders_data]

theorem logResponseEntry_data_of_body_falsy (ts : String) (durMs code : Int)
    (hs : List (String × String)) (hne : hs ≠ []) (b : PyVal)
    (hb : pyTruthy b = false) :
    (logResponseEntry ts durMs code hs (some b)).data =
      chunksData (responseEntryChunks ts (toString durMs) (toString code) hs none) := by
  have hemp : hs.isEmpty = false := by simp [hne]
  simp [logResponseEntry, responseEntryChunks, bodyChunksOf, chunksData,
    List.map_append, List.flatten_append, LogChunk.chars, hemp, hb,
    String.data_append, List.append_assoc, formatHeaders_data]

theorem logResponseEntry_data_of_body_truthy (ts : String) (durMs code : Int)
    (hs : List (String × String)) (hne : hs ≠ []) (b : PyVal)
    (hb : pyTruthy b = true) :
    (logResponseEntry ts durMs code hs (some b)).data =
      chunksData (responseEntryChunks ts (toString durMs) (toString code) hs
        (some (formatBody b))) := by
  have hemp : hs.isEmpty = false := by simp [hne]
  simp [logResponseEntry, responseEntryChunks, bodyChunksOf, chunksData,
    List.map_append, List.flatten_append, LogChunk.chars, hemp, hb,
    String.data_append, List.append_assoc, formatHeaders_data]

theorem requestEntryChunks_ok (ts m u : String) (hs : List (String × String))
    (bodyTxt : Option String)
    (hts : ¬ ("secret" : String).data <:+: ts.data)
    (hm : ¬ ("secret" : String).data <:+: m.data)
    (hu : ¬ ("secret" : String).data <:+: u.data)
    (hkeys : ∀ kv ∈ hs, ¬ ("secret" : String).data <:+: kv.1.data)
    (hvals : ∀ kv ∈ hs, pyLower kv.1 ∉ sensitiveHeaderKeys →
      ¬ ("secret" : String).data <:+: kv.2.data)
    (hbody : ∀ fb, bodyTxt = some fb → ¬ ("secret" : String).data <:+: fb.data) :
    ChunksOk ("secret" : String).data (requestEntryChunks ts m u hs bodyTxt) := by
  have htail : ChunksOk ("secret" : String).data
      (.sep ("\n" : String).data :: bodyChunksOf bodyTxt) := by
    cases bodyTxt with
    | none => exact ChunksOk.sep (by decide) ChunksOk.nil
    | some fb =>
        exact ChunksOk.sep (by decide)
          (ChunksOk.sep (by decide)
            (ChunksOk.txtSep (hbody fb rfl) (by decide) (by decide) ChunksOk.nil))
  have hhdr := headerChunks_ok (p := ("secret" : String).data) (by decide)
    (by decide) (by decide) (by decide) (by decide)
    ("\n" : String).data _ (by decide) (by decide) htail hs hkeys hvals
  simp only [requestEntryChunks, List.cons_append, List.nil_append,
    List.append_assoc]
  exact ChunksOk.sep (by decide)
    (ChunksOk.txtSep hts (by decide) (by decide)
      (ChunksOk.txtSep hm (by decide) (by decide)
        (ChunksOk.txtSep hu (by decide) (by decide) hhdr)))

theorem responseEntryChunks_ok (ts durStr codeStr : String)
    (hs : List (String × String)) (bodyTxt : Option String)
    (hts : ¬ ("secret" : String).data <:+: ts.data)
    (hdur : ¬ ("secret" : String).data <:+: durStr.data)
    (hcode : ¬ ("secret" : String).data <:+: codeStr.data)
    (hkeys : ∀ kv ∈ hs, ¬ ("secret" : String).data <:+: kv.1.data)
    (hvals : ∀ kv ∈ hs, pyLower kv.1 ∉ sensitiveHeaderKeys →
      ¬ ("secret" : String).data <:+: kv.2.data)
    (hbody : ∀ fb, bodyTxt = some fb → ¬ ("secret" : String).data <:+: fb.data) :
    ChunksOk ("secret" : String).data
      (responseEntryChunks ts durStr codeStr hs bodyTxt) := by
  have htail : ChunksOk ("secret" : String).data
      (.sep ("\n" : String).data ::
        (bodyChunksOf bodyTxt ++
          [.sep (String.mk (List.replicate 40 '-') ++ "\n").data])) := by
    cases bodyTxt with
    | none =>
        exact ChunksOk.sep (by decide) (ChunksOk.sep (by decide) ChunksOk.nil)
    | some fb =>
        exact ChunksOk.sep (by decide)
          (ChunksOk.sep (by decide)
            (ChunksOk.txtSep (hbody fb rfl) (by decide) (by decide)
              (ChunksOk.sep (by decide) ChunksOk.nil)))
  have hhdr := headerChunks_ok (p := ("secret" : String).data) (by decide)
    (by decide) (by decide) (by decide) (by decide)
    ("\n" : String).data _ (by decide) (by decide) htail hs hkeys hvals
  simp only [responseEntryChunks, List.cons_append, List.nil_append,
    List.append_assoc]
  exact ChunksOk.sep (by decide)
    (ChunksOk.txtSep hts (by decide) (by decide)
      (ChunksOk.txtSep hdur (by decide) (by decide)
        (ChunksOk.txtSep (by decide) (by decide) (by decide)
          (ChunksOk.txtSep hcode (by decide) (by decide) hhdr))))

/-- C3 counterexample: a call whose header map does contain an
`Authorization` header with value `"secret"` can still produce an entry
containing the literal substring `"secret"` — here it arrives through
the URL, which masking does not touch.  So the claim as stated (the
enqueued entry *never* contains `"secret"`) is false. -/
theorem claim_c3_counterexample :
    sensitiveHeaderKeys.contains (pyLower "Authorization") = true ∧
    (("Authorization", "secret") ∈
      ([("Authorization", "secret")] : List (String × String))) ∧
    strContains (logRequestEntry "2024-01-01T00:00:00" "GET" "/secret"
      [("Authorization", "secret")] none) "secret" = true := by
  refine ⟨by decide, by decide, by decide⟩

/-- C3 (amended): header masking replaces the value of every header
whose key case-insensitively matches {authorization, cookie, x-api-key}
with `*****` before the entry is assembled, so the sensitive values —
whatever they are — never reach the entry: provided the literal
`"secret"` does not itself occur in the timestamp, method, URL,
duration/status-code rendering, a header key, a non-sensitive header
value, or the formatted body, neither the request entry nor the
response entry contains the substring `"secret"` (no constraint is
placed on the sensitive headers' values). -/
theorem claim_c3_masked_entries_secret_free
    (ts m u : String) (durMs code : Int) (hs : List (String × String))
    (body : Option PyVal) (hne : hs ≠ [])
    (hts : strContains ts "secret" = false)
    (hm : strContains m "secret" = false)
    (hu : strContains u "secret" = false)
    (hdur : strContains (toString durMs) "secret" = false)
    (hcode : strContains (toString code) "secret" = false)
    (hkeys : ∀ kv ∈ hs, strContains kv.1 "secret" = false)
    (hvals : ∀ kv ∈ hs, pyLower kv.1 ∉ sensitiveHeaderKeys →
      strContains kv.2 "secret" = false)
    (hbody : ∀ b, body = some b → strContains (formatBody b) "secret" = false) :
    strContains (logRequestEntry ts m u hs body) "secret" = false ∧
    strContains (logResponseEntry ts durMs code hs body) "secret" = false := by
  rw [strContains_eq_false_iff] at hts hm hu hdur hcode
  have hkeys' : ∀ kv ∈ hs, ¬ ("secret" : String).data <:+: kv.1.data :=
    fun kv h => strContains_eq_false_iff.mp (hkeys kv h)
  have hvals' : ∀ kv ∈ hs, pyLower kv.1 ∉ sensitiveHeaderKeys →
      ¬ ("secret" : String).data <:+: kv.2.data :=
    fun kv h hsen => strContains_eq_false_iff.mp (hvals kv h hsen)
  have hsecret : (("secret" : String).data ≠ []) := by decide
  constructor
  · rw [strContains_eq_false_iff]
    rcases body with _ | b
    · rw [logRequestEntry_data_of_body_none ts m u hs hne]
      exact chunksOk_not_infix hsecret
        (requestEntryChunks_ok ts m u hs none hts hm hu hkeys' hvals'
          (fun fb h => nomatch h))
    · by_cases hb : pyTruthy b
      · rw [logRequestEntry_data_of_body_truthy ts m u hs hne b hb]
        refine chunksOk_not_infix hsecret
          (requestEntryChunks_ok ts m u hs (some (formatBody b)) hts hm hu
            hkeys' hvals' ?_)
        intro fb h
        cases h
        exact strContains_eq_false_iff.mp (hbody b rfl)
      · rw [logRequestEntry_data_of_body_falsy ts m u hs hne b
          (Bool.eq_false_iff.mpr hb)]
        exact chunksOk_not_infix hsecret
          (requestEntryChunks_ok ts m u hs none hts hm hu hkeys' hvals'
            (fun fb h => nomatch h))
  · rw [strContains_eq_false_iff]
    rcases body with _ | b
    · rw [logResponseEntry_data_of_body_none ts durMs code hs hne]
      exact chunksOk_not_infix hsecret
        (responseEntryChunks_ok ts (toString durMs) (toString code) hs none
          hts hdur hcode hkeys' hvals' (fun fb h => nomatch h))
    · by_cases hb : pyTruthy b
      · rw [logResponseEntry_data_of_body_truthy ts durMs code hs hne b hb]
        refine chunksOk_not_infix hsecret
          (responseEntryChunks_ok ts (toString durMs) (toString code) hs
            (some (formatBody b)) hts hdur hcode hkeys' hvals' ?_)
        intro fb h
        cases h
        exact strContains_eq_false_iff.mp (hbody b rfl)
      · rw [logResponseEntry_data_of_body_falsy ts durMs code hs hne b
          (Bool.eq_false_iff.mpr hb)]
        exact chunksOk_not_infix hsecret
          (responseEntryChunks_ok ts (toString durMs) (toString code) hs none
            hts hdur hcode hkeys' hvals' (fun fb h => nomatch h))

/-- Witness for the amended C3 at a concrete call: an Authorization
header holding `"secret"` next to a harmless Accept header. -/
theorem claim_c3_masked_entries_secret_free_witness :
    (([("Authorization", "secret"), ("Accept", "application/json")] :
        List (String × String)) ≠ [] ∧
      strContains "2024-01-01T00:00:00" "secret" = false ∧
      strContains "GET" "secret" = false ∧
      strContains "/login" "secret" = false ∧
      strContains (toString (12 : Int)) "secret" = false ∧
      strContains (toString (200 : Int)) "secret" = false) ∧
    strContains (logRequestEntry "2024-01-01T00:00:00" "GET" "/login"
      [("Authorization", "secret"), ("Accept", "application/json")] none)
      "secret" = false ∧
    strContains (logResponseEntry "2024-01-01T00:00:00" 12 200
      [("Authorization", "secret"), ("Accept", "application/json")] none)
      "secret" = false :=
  ⟨⟨by decide, by decide, by decide, by decide, by decide, by decide⟩,
    claim_c3_masked_entries_secret_free "2024-01-01T00:00:00" "GET" "/login"
      12 200 [("Authorization", "secret"), ("Accept", "application/json")]
      none (by decide) (by decide) (by decide) (by decide) (by decide)
      (by decide) (by decide) (by decide) (fun b h => nomatch h)⟩

/-! ## Body-masking lemmas -/

theorem setVal_entries : ∀ (d : PyDict) (key : String) (v : PyVal),
    (d.setVal key v).entries =
      d.entries.map (fun kv => if kv.1 = key then (kv.1, v) else kv)
  | .nil, _, _ => rfl
  | .cons k v' rest, key, v => by
      by_cases hk : k = key <;>
        simp [PyDict.setVal, PyDict.entries, hk, setVal_entries rest key v]

theorem containsKey_eq_false_iff : ∀ (d : PyDict) (key : String),
    d.containsKey key = false ↔ ∀ kv ∈ d.entries, kv.1 ≠ key
  | .nil, key => by simp [PyDict.containsKey, PyDict.entries]
  | .cons k v rest, key => by
      simp [PyDict.containsKey, PyDict.entries, containsKey_eq_false_iff rest key]

theorem maskStep_entries (d : PyDict) (key : String) (v : PyVal) :
    (if d.containsKey key then d.setVal key v else d).entries =
      d.entries.map (fun kv => if kv.1 = key then (kv.1, v) else kv) := by
  by_cases hc : d.containsKey key
  · simp [hc, setVal_entries]
  · have h := (containsKey_eq_false_iff d key).mp (by simpa using hc)
    simp only [hc, if_false, Bool.false_eq_true]
    rw [List.map_congr_left (g := id) (fun kv hkv => by simp [h kv hkv]),
      List.map_id]

/-- The entries of the masked dict: keys and order are preserved, and
exactly the values under sensitive field names are replaced. -/
theorem maskDict_entries (d : PyDict) :
    (maskDict d).entries =
      d.entries.map (fun kv =>
        (kv.1, if sensitiveBodyKeys.contains kv.1 then PyVal.str maskStr
          else kv.2)) := by
  simp only [maskDict, sensitiveBodyKeys, List.foldl_cons, List.foldl_nil]
  rw [maskStep_entries, maskStep_entries, maskStep_entries,
    List.map_map, List.map_map]
  apply List.map_congr_left
  intro kv _
  by_cases h1 : kv.1 = "password"
  · have h2 : ¬ kv.1 = "token" := by rw [h1]; decide
    have h3 : ¬ kv.1 = "api_key" := by rw [h1]; decide
    simp [Function.comp, h1, h2, h3]
  · by_cases h2 : kv.1 = "token"
    · have h3 : ¬ kv.1 = "api_key" := by rw [h2]; decide
      simp [Function.comp, h1, h2, h3]
    · by_cases h3 : kv.1 = "api_key" <;> simp [Function.comp, h1, h2, h3]

theorem entries_eq_nil_iff (d : PyDict) : d.entries = [] ↔ d = .nil := by
  cases d <;> simp [PyDict.entries]

/-- The joined dict entries are the concatenation of their chunk
decomposition. -/
theorem pyDumpsEntries_data : ∀ d : PyDict, d ≠ .nil →
    (strJoin ",\n" (pyDumpsEntries 1 d)).data = chunksData (dictChunks d)
  | .nil, h => absurd rfl h
  | .cons k v rest, _ => by
      have hind : (jsonIndent 1).data = [' ', ' '] := by decide
      cases rest with
      | nil =>
          simp [pyDumpsEntries, strJoin, dictChunks, dictEntryChunks, chunksData,
            LogChunk.chars, jsonQuote, hind, String.data_append, List.append_assoc]
      | cons k2 v2 rest2 =>
          have ih := pyDumpsEntries_data (.cons k2 v2 rest2) (by simp)
          have hstep : strJoin ",\n" (pyDumpsEntries 1 (.cons k (v : PyVal)
              (.cons k2 v2 rest2))) =
              (jsonIndent 1 ++ jsonQuote k ++ ": " ++ pyDumps 1 v) ++ ",\n" ++
                strJoin ",\n" (pyDumpsEntries 1 (.cons k2 v2 rest2)) := by
            simp [pyDumpsEntries, strJoin]
          simp [hstep, dictChunks, dictEntryChunks, chunksData, chunksData_append,
            LogChunk.chars, jsonQuote, hind, String.data_append, List.append_assoc,
            ih]

/-- The dict entry chunks are well formed whenever the secret avoids the
JSON punctuation characters, the escaped keys, and the rendered
values. -/
theorem dictChunks_ok {p : List Char} (hp : p ≠ [])
    (hquote : '"' ∉ p) (hcolon : ':' ∉ p) (hspace : ' ' ∉ p)
    (hcomma : ',' ∉ p) (hnl : '\n' ∉ p)
    (s' : List Char) (r' : List LogChunk) (hne : s' ≠ [])
    (hsc : ∀ c ∈ s', c ∉ p) (hrest : ChunksOk p (.sep s' :: r')) :
    ∀ d : PyDict,
      (∀ kv ∈ d.entries, ¬ p <:+: (jsonEscape kv.1).data) →
      (∀ kv ∈ d.entries, ¬ p <:+: (pyDumps 1 kv.2).data) →
      ChunksOk p (dictChunks d ++ .sep s' :: r')
  | .nil, _, _ => by simpa [dictChunks] using hrest
  | .cons k v .nil, hkeys, hvals => by
      have hr' : ChunksOk p r' := by cases hrest with | sep _ h => exact h
      have hic : ∀ c ∈ ("  \"" : String).data, c ∉ p := by
        intro c hc
        rcases (show c = ' ' ∨ c = '"' by
          simpa using hc) with rfl | rfl
        exacts [hspace, hquote]
      have hqc : ∀ c ∈ ("\": " : String).data, c ∉ p := by
        intro c hc
        rcases (show c = '"' ∨ c = ':' ∨ c = ' ' by simpa using hc)
          with rfl | rfl | rfl
        exacts [hquote, hcolon, hspace]
      simp only [dictChunks, dictEntryChunks, List.cons_append, List.nil_append]
      exact ChunksOk.sep hic
        (ChunksOk.txtSep (hkeys (k, v) (by simp [PyDict.entries])) (by decide) hqc
          (ChunksOk.txtSep (hvals (k, v) (by simp [PyDict.entries])) hne hsc hr'))
  | .cons k v (.cons k2 v2 rest2), hkeys, hvals => by
      have hic : ∀ c ∈ ("  \"" : String).data, c ∉ p := by
        intro c hc
        rcases (show c = ' ' ∨ c = '"' by simpa using hc) with rfl | rfl
        exacts [hspace, hquote]
      have hqc : ∀ c ∈ ("\": " : String).data, c ∉ p := by
        intro c hc
        rcases (show c = '"' ∨ c = ':' ∨ c = ' ' by simpa using hc)
          with rfl | rfl | rfl
        exacts [hquote, hcolon, hspace]
      have hcn : ∀ c ∈ (",\n" : String).data, c ∉ p := by
        intro c hc
        rcases (show c = ',' ∨ c = '\n' by simpa using hc) with rfl | rfl
        exacts [hcomma, hnl]
      have ih := dictChunks_ok hp hquote hcolon hspace hcomma hnl s' r' hne hsc
        hrest (.cons k2 v2 rest2)
        (fun kv h => hkeys kv (by simp [PyDict.entries] at h ⊢; tauto))
        (fun kv h => hvals kv (by simp [PyDict.entries] at h ⊢; tauto))
      simp only [dictChunks, dictEntryChunks, List.cons_append, List.nil_append,
        List.append_assoc] at ih ⊢
      exact ChunksOk.sep hic
        (ChunksOk.txtSep (hkeys (k, v) (by simp [PyDict.entries])) (by decide) hqc
          (ChunksOk.txtSep (hvals (k, v) (by simp [PyDict.entries])) (by decide)
            hcn ih))

theorem formatBody_dict_data (kvs : PyDict) (hne : kvs ≠ .nil) :
    (formatBody (.dict kvs)).data =
      chunksData (.sep ("\x7b\n" : String).data ::
        (dictChunks (maskDict kvs) ++ [.sep ("\n\x7d" : String).data])) := by
  cases kvs with
  | nil => exact absurd rfl hne
  | cons k v rest =>
      have hmne : maskDict (.cons k v rest) ≠ .nil := by
        intro h
        have hent := maskDict_entries (.cons k v rest)
        rw [h] at hent
        simp [PyDict.entries] at hent
      cases hmask : maskDict (.cons k v rest) with
      | nil => exact absurd hmask hmne
      | cons mk mv mrest =>
          have hjoin := pyDumpsEntries_data (.cons mk mv mrest) (by simp)
          have hind : (jsonIndent 0).data = [] := by decide
          rw [show formatBody (.dict (.cons k v rest)) =
            pyDumps 0 (.dict (maskDict (.cons k v rest))) from rfl, hmask]
          simp [pyDumps, hjoin, hind, chunksData, chunksData_append,
            LogChunk.chars, String.data_append, List.append_assoc]

set_option maxRecDepth 8192 in
/-- C4 counterexample: in a list-of-dicts body the `password` field is
NOT masked — `_format_body` only copies-and-masks when the body itself
is a dict — so its value `"secret"` appears verbatim in the formatted
body and in the enqueued entry.  The claim as stated (masking covers
lists of dicts and nested structures) is false. -/
theorem claim_c4_counterexample :
    strContains (formatBody
      (.list (.cons (.dict (.cons "password" (.str "secret") .nil)) .nil)))
      "secret" = true ∧
    strContains (logRequestEntry "2024-01-01T00:00:00" "POST" "/login" []
      (some (.list (.cons (.dict (.cons "password" (.str "secret") .nil)) .nil))))
      "secret" = true := by
  refine ⟨by decide, by decide⟩

/-- C4 (amended): `_format_body` masks only the top level of a dict
body.  For a dict body, every top-level field named password/token/
api_key has its value replaced by `*****` before serialization, and —
provided the secret value avoids the JSON punctuation characters and
does not occur in an escaped key or in the rendering of a
non-sensitive value — the formatted body does not contain it.  Fields
inside lists or nested dicts are serialized unmasked (see the
counterexample). -/
theorem claim_c4_top_level_dict_masking (v : String) (kvs : PyDict)
    (hv : v ≠ "")
    (hchars : ∀ c ∈ (['\x7b', '\x7d', '\n', ' ', '"', ':', ',', '*'] : List Char),
      c ∉ v.data)
    (hkeys : ∀ kv ∈ kvs.entries, strContains (jsonEscape kv.1) v = false)
    (hvals : ∀ kv ∈ kvs.entries, sensitiveBodyKeys.contains kv.1 = false →
      strContains (pyDumps 1 kv.2) v = false) :
    (∀ kv ∈ (maskDict kvs).entries, sensitiveBodyKeys.contains kv.1 = true →
      kv.2 = .str maskStr) ∧
    strContains (formatBody (.dict kvs)) v = false := by
  have hvd : v.data ≠ [] := by
    intro h
    apply hv
    cases v with
    | mk d => cases h; rfl
  have hmkeys : ∀ kv ∈ (maskDict kvs).entries,
      ¬ v.data <:+: (jsonEscape kv.1).data := by
    intro kv hkv
    rw [maskDict_entries] at hkv
    obtain ⟨kv0, hkv0, rfl⟩ := List.mem_map.mp hkv
    exact strContains_eq_false_iff.mp (hkeys kv0 hkv0)
  have hmaskdump : (pyDumps 1 (PyVal.str maskStr)).data =
      ['"', '*', '*', '*', '*', '*', '"'] := by decide
  have hmvals : ∀ kv ∈ (maskDict kvs).entries,
      ¬ v.data <:+: (pyDumps 1 kv.2).data := by
    intro kv hkv
    rw [maskDict_entries] at hkv
    obtain ⟨kv0, hkv0, rfl⟩ := List.mem_map.mp hkv
    by_cases hsens : sensitiveBodyKeys.contains kv0.1
    · simp only [hsens, if_true]
      rw [hmaskdump]
      refine not_infix_of_forbidden ?_ hvd
      intro c hc
      rcases (show c = '"' ∨ c = '*' ∨ c = '"' by simpa using hc)
        with rfl | rfl | rfl
      · exact hchars '"' (by simp)
      · exact hchars '*' (by simp)
      · exact hchars '"' (by simp)
    · simp only [hsens, if_false, Bool.false_eq_true]
      exact strContains_eq_false_iff.mp (hvals kv0 hkv0 (by simpa using hsens))
  constructor
  · intro kv hkv hsens
    rw [maskDict_entries] at hkv
    obtain ⟨kv0, hkv0, rfl⟩ := List.mem_map.mp hkv
    have hmem : kv0.1 ∈ sensitiveBodyKeys := by simpa using hsens
    simp [hmem]
  · rw [strContains_eq_false_iff]
    cases kvs with
    | nil =>
        intro h
        rw [show formatBody (.dict .nil) = "" from rfl] at h
        exact hvd (List.infix_nil.mp h)
    | cons k0 v0 rest0 =>
        rw [formatBody_dict_data (.cons k0 v0 rest0) (by simp)]
        have hbrace : ∀ c ∈ ("\x7b\n" : String).data, c ∉ v.data := by
          intro c hc
          rcases (show c = '\x7b' ∨ c = '\n' by simpa using hc) with rfl | rfl
          · exact hchars '\x7b' (by simp)
          · exact hchars '\n' (by simp)
        have hclose : ∀ c ∈ ("\n\x7d" : String).data, c ∉ v.data := by
          intro c hc
          rcases (show c = '\n' ∨ c = '\x7d' by simpa using hc) with rfl | rfl
          · exact hchars '\n' (by simp)
          · exact hchars '\x7d' (by simp)
        refine chunksOk_not_infix hvd ?_
        refine ChunksOk.sep hbrace ?_
        exact dictChunks_ok hvd (hchars '"' (by simp)) (hchars ':' (by simp))
          (hchars ' ' (by simp)) (hchars ',' (by simp)) (hchars '\n' (by simp))
          ("\n\x7d" : String).data [] (by decide) hclose
          (ChunksOk.sep hclose ChunksOk.nil) (maskDict (.cons k0 v0 rest0))
          hmkeys hmvals

/-- Witness for the amended C4: a dict body holding a sensitive
`password` field with value `"secret"` next to a harmless `user`
field. -/
theorem claim_c4_top_level_dict_masking_witness :
    (("secret" : String) ≠ "" ∧
      (∀ kv ∈ (PyDict.cons "password" (.str "secret")
          (.cons "user" (.str "alice") .nil)).entries,
        strContains (jsonEscape kv.1) "secret" = false) ∧
      (∀ kv ∈ (PyDict.cons "password" (.str "secret")
          (.cons "user" (.str "alice") .nil)).entries,
        sensitiveBodyKeys.contains kv.1 = false →
          strContains (pyDumps 1 kv.2) "secret" = false)) ∧
    (∀ kv ∈ (maskDict (PyDict.cons "password" (.str "secret")
        (.cons "user" (.str "alice") .nil))).entries,
      sensitiveBodyKeys.contains kv.1 = true → kv.2 = .str maskStr) ∧
    strContains (formatBody (.dict (PyDict.cons "password" (.str "secret")
      (.cons "user" (.str "alice") .nil)))) "secret" = false :=
  ⟨⟨by decide, by decide, by decide⟩,
    claim_c4_top_level_dict_masking "secret"
      (PyDict.cons "password" (.str "secret") (.cons "user" (.str "alice") .nil))
      (by decide) (by decide) (by decide) (by decide)⟩
